import Mathlib

/-!
Verification of the `salt` repository slice consisting of
`salt/modules/freebsdservice.py` and `salt/states/cron.py`.

The service module is embedded as pure functions over an explicit `World`
value that carries everything the Python code obtains from its host
environment: the result of `salt.utils.which('service')`, the stdout of the
`service -l` / `service -e` / `service <name> rcvar` commands, the relevant
bits of the filesystem, and the `config.option` lookup.  A Python exception
that escapes a function is modelled as `Except.error`; a normal return value
as `Except.ok`.

Python string operations are modelled over `String.data` (the list of
characters), which matches Python's sequence-of-characters semantics.
-/

/-- Exceptions that can escape the embedded functions:
`commandNotFound` models `salt.exceptions.CommandNotFoundError` raised by
`_cmd`, and `valueError` models the `ValueError` raised by a failing
tuple-unpacking such as `_, state, _ = line.split('"', 2)`. -/
inductive SaltError where
  | commandNotFound
  | valueError
deriving DecidableEq, Repr

deriving instance DecidableEq for Except

/-- Host environment of `freebsdservice.py`: command lookup result, command
outputs (as lists of stdout lines), filesystem state (files as association
lists from path to list of lines, each line keeping its newline, exactly as
Python file iteration yields them), and config options. -/
structure World where
  /-- result of `salt.utils.which('service')` -/
  whichService : Option String
  /-- stdout lines of `{service} -l` -/
  listOutput : List String
  /-- stdout lines of `{service} -e` -/
  enabledOutput : List String
  /-- stdout lines of `{service} {name} rcvar`, per service name -/
  rcvarOutput : List (String × List String)
  /-- names `svc` for which `/etc/rc.conf.d/{svc}` exists -/
  rcConfD : List String
  /-- whether `/etc/rc.conf.d` exists and is a directory -/
  rcConfDirExists : Bool
  /-- result of `config.option('service.config', default='/etc/rc.conf')` -/
  configOption : String
  /-- text files: path to list of lines -/
  files : List (String × List String)
deriving DecidableEq

/-- Python `s.startswith(p)`. -/
def pyStartsWith (s p : String) : Bool :=
  p.data.isPrefixOf s.data

/-- Python `sub in s` (substring containment). -/
def pyContains (s sub : String) : Bool :=
  s.data.tails.any (fun t => sub.data.isPrefixOf t)

/-- Python `s.isupper()`: at least one cased character and no lowercase
cased character (restricted to alphabetic characters, which covers the
service names at hand). -/
def pyIsUpper (s : String) : Bool :=
  s.data.any (fun c => c.isAlpha) && s.data.all (fun c => !c.isLower)

/-- Python `os.path.basename`: everything after the last `/`. -/
def pyBasename (s : String) : String :=
  String.mk ((s.data.reverse.takeWhile (fun c => c != '/')).reverse)

/-- First whitespace-delimited token of a line, i.e. Python
`line.split()[0]`.  (On an all-whitespace line Python would raise
`IndexError`; this returns `[]` there.  The callers below only apply it to
lines that start with `rcvar + "="`, which contain the non-whitespace
character `=`, so that case is unreachable in the embedded code.) -/
def pyFirstTok (l : List Char) : List Char :=
  (l.dropWhile Char.isWhitespace).takeWhile (fun c => !c.isWhitespace)

/-- Python `line[len(line.split()[0]):]` from `_switch`: the part of the
line after the index given by the length of its first token. -/
def pyRest (line : String) : String :=
  String.mk (line.data.drop (pyFirstTok line.data).length)

/-- Python `s.replace(old, new)`: replace every occurrence, scanning left
to right. -/
def replaceAll (old new : List Char) : List Char → List Char
  | [] => []
  | c :: rest =>
    if old ≠ [] ∧ old.isPrefixOf (c :: rest) then
      new ++ replaceAll old new (rest.drop (old.length - 1))
    else
      c :: replaceAll old new rest
termination_by l => l.length
decreasing_by
  all_goals simp only [List.length_drop, List.length_cons]
  all_goals omega

/-- Python `line.split('"', 2)` followed by unpacking into three names:
`none` models the `ValueError` raised when the line has fewer than two
double quotes. -/
def splitFirst (c : Char) (l : List Char) : Option (List Char × List Char) :=
  match l.dropWhile (fun x => x != c) with
  | [] => none
  | _ :: rest => some (l.takeWhile (fun x => x != c), rest)

def pySplitQuote2 (s : String) : Option (String × String × String) :=
  match splitFirst '\x22' s.data with
  | none => none
  | some (a, r) =>
    match splitFirst '\x22' r with
    | none => none
    | some (b, r2) => some (String.mk a, String.mk b, String.mk r2)

/-- Lexicographic comparison of character lists by code point — the order
Python `sorted` uses for strings. -/
def leChars : List Char → List Char → Bool
  | [], _ => true
  | _ :: _, [] => false
  | a :: as, b :: bs =>
    if a.toNat < b.toNat then true
    else if b.toNat < a.toNat then false
    else leChars as bs

/-- Python `a <= b` on strings. -/
def strLe (a b : String) : Bool :=
  leChars a.data b.data

/-- Python `sorted` on strings: a sorted permutation of the input (for a
total order the sorted rearrangement is unique as a list, so any sorting
algorithm is a faithful model). -/
def sortStr (l : List String) : List String :=
  List.insertionSort (fun a b => strLe a b = true) l

/-- Read a file: `files` lookup by path. -/
def getFile (fs : List (String × List String)) (p : String) : Option (List String) :=
  (fs.find? (fun e => e.1 == p)).map (fun e => e.2)

/-- Overwrite (or create) the file at `p` with lines `v`. -/
def setFile (fs : List (String × List String)) (p : String) (v : List String) :
    List (String × List String) :=
  (p, v) :: fs.filter (fun e => e.1 != p)

/-- stdout of `{service} {name} rcvar` in world `w`. -/
def rcvarLines (w : World) (name : String) : List String :=
  ((w.rcvarOutput.find? (fun e => e.1 == name)).map (fun e => e.2)).getD []

/-- `_cmd()`: full path of the `service` command, raising
`CommandNotFoundError` when `salt.utils.which` finds nothing. -/
def cmdPath (w : World) : Except SaltError String :=
  match w.whichService with
  | none => Except.error SaltError.commandNotFound
  | some s => Except.ok s

/-- `get_all()`: every line of `{service} -l` that is not all-uppercase,
sorted. -/
def get_all (w : World) : Except SaltError (List String) :=
  match cmdPath w with
  | Except.error e => Except.error e
  | Except.ok _ => Except.ok (sortStr (w.listOutput.filter (fun srv => !pyIsUpper srv)))

/-- `available(name)`: `name in get_all()`. -/
def available (w : World) (name : String) : Except SaltError Bool :=
  match get_all w with
  | Except.error e => Except.error e
  | Except.ok l => Except.ok (decide (name ∈ l))

/-- `_get_rcvar(name)`: the part before the first `=` of the first rcvar
output line containing `_enable="`.  The Python function returns the falsy
`False` when the service is unavailable and the falsy `None` when no line
matches; both are mapped to `none` (the caller `_switch` only tests
falsiness). -/
def _get_rcvar (w : World) (name : String) : Except SaltError (Option String) :=
  match available w name with
  | Except.error e => Except.error e
  | Except.ok false => Except.ok none
  | Except.ok true =>
    match cmdPath w with
    | Except.error e => Except.error e
    | Except.ok _ =>
      match (rcvarLines w name).find? (fun l => pyContains l "_enable=\x22") with
      | none => Except.ok none
      | some line => Except.ok (some (String.mk (line.data.takeWhile (fun c => c != '='))))

/-- `enabled(name)`: `False` when unavailable; otherwise the value between
the first two double quotes of the first rcvar output line containing
`_enable="`, lowercased, tested against `yes/true/on/1`; `False` when no
line matches. -/
def enabled (w : World) (name : String) : Except SaltError Bool :=
  match available w name with
  | Except.error e => Except.error e
  | Except.ok false => Except.ok false
  | Except.ok true =>
    match cmdPath w with
    | Except.error e => Except.error e
    | Except.ok _ =>
      match (rcvarLines w name).find? (fun l => pyContains l "_enable=\x22") with
      | none => Except.ok false
      | some line =>
        match pySplitQuote2 line with
        | none => Except.error SaltError.valueError
        | some (_, state, _) =>
          Except.ok (decide (state.toLower ∈ ["yes", "true", "on", "1"]))

/-- `disabled(name)`: `not enabled(name)`. -/
def disabled (w : World) (name : String) : Except SaltError Bool :=
  match enabled w name with
  | Except.error e => Except.error e
  | Except.ok b => Except.ok (!b)

/-- The workaround loop of `get_enabled`: walk `get_all()`, appending each
service that is not yet listed, has an `/etc/rc.conf.d/{svc}` entry, and
reports as `enabled`. -/
def enabledLoop (w : World) (acc : List String) : List String → Except SaltError (List String)
  | [] => Except.ok acc
  | svc :: rest =>
    if svc ∈ acc then enabledLoop w acc rest
    else if svc ∉ w.rcConfD then enabledLoop w acc rest
    else
      match enabled w svc with
      | Except.error e => Except.error e
      | Except.ok true => enabledLoop w (acc ++ [svc]) rest
      | Except.ok false => enabledLoop w acc rest

/-- `get_enabled()`: basenames of the `{service} -e` output, extended by the
bin/173454 workaround loop, sorted. -/
def get_enabled (w : World) : Except SaltError (List String) :=
  match cmdPath w with
  | Except.error e => Except.error e
  | Except.ok _ =>
    match get_all w with
    | Except.error e => Except.error e
    | Except.ok all =>
      match enabledLoop w (w.enabledOutput.map pyBasename) all with
      | Except.error e => Except.error e
      | Except.ok ret => Except.ok (sortStr ret)

/-- `get_disabled()`: `sorted(set(get_all()) - set(get_enabled()))`. -/
def get_disabled (w : World) : Except SaltError (List String) :=
  match get_enabled w with
  | Except.error e => Except.error e
  | Except.ok en =>
    match get_all w with
    | Except.error e => Except.error e
    | Except.ok all =>
      Except.ok (sortStr ((all.filter (fun s => decide (s ∉ en))).dedup))

/-- The value written by `_switch`: `YES` to switch on, `NO` to switch
off. -/
def switchVal (turnOn : Bool) : String :=
  if turnOn then "YES" else "NO"

/-- The replacement for a matching line in `_switch`:
`'{0}="{1}"{2}'.format(rcvar, val, rest)` with
`rest = line[len(line.split()[0]):]`. -/
def rewriteLine (rcvar val line : String) : String :=
  rcvar ++ "=\x22" ++ val ++ "\x22" ++ pyRest line

/-- The line appended by `_switch` when no line matched:
`'{0}="{1}"\n'.format(rcvar, val)`. -/
def appendLine (rcvar val : String) : String :=
  rcvar ++ "=\x22" ++ val ++ "\x22\n"

/-- The line-rewriting loop of `_switch`: every line starting with
`rcvar + "="` is replaced by `rewriteLine` (setting `edited`), every other
line is kept unchanged.  Returns `(nlines, edited)`. -/
def switchLines (rcvar val : String) : List String → List String × Bool
  | [] => ([], false)
  | line :: rest =>
    let r := switchLines rcvar val rest
    if pyStartsWith line (rcvar ++ "=") then (rewriteLine rcvar val line :: r.1, true)
    else (line :: r.1, r.2)

/-- The full list of lines `_switch` writes to the config file: the
rewritten lines when the file exists, with `appendLine` appended when no
line was edited (in particular when the file does not exist). -/
def switchNlines (rcvar val : String) : Option (List String) → List String
  | none => [appendLine rcvar val]
  | some lines =>
    let r := switchLines rcvar val lines
    if r.2 then r.1 else r.1 ++ [appendLine rcvar val]

/-- The config path used when `config` resolves to the empty string:
`os.path.join('/etc/rc.conf.d', rcvar.replace('_enable', ''))`. -/
def rcdPath (rcvar : String) : String :=
  "/etc/rc.conf.d/" ++ String.mk (replaceAll ("_enable".data) [] rcvar.data)

/-- The file write performed by `_switch`: replace the contents of `config`
with `switchNlines` applied to its current contents. -/
def writeSwitch (w : World) (config rcvar : String) (turnOn : Bool) : World :=
  { w with
    files := setFile w.files config
        (switchNlines rcvar (switchVal turnOn) (getFile w.files config)) }

/-- `_switch(name, on, **kwargs)`: gate on `available`, look up the rcvar,
resolve the config path (`kwargs['config']`, else the `service.config`
option, else `/etc/rc.conf.d/...` when that resolves to the empty string),
rewrite the file, and report success. -/
def _switch (w : World) (name : String) (turnOn : Bool) (kw : Option String) :
    Except SaltError (Bool × World) :=
  match available w name with
  | Except.error e => Except.error e
  | Except.ok false => Except.ok (false, w)
  | Except.ok true =>
    match _get_rcvar w name with
    | Except.error e => Except.error e
    | Except.ok none => Except.ok (false, w)
    | Except.ok (some rcvar) =>
      if rcvar = "" then Except.ok (false, w)
      else
        let config0 := kw.getD w.configOption
        if config0 = "" then
          if w.rcConfDirExists then
            Except.ok (true, writeSwitch w (rcdPath rcvar) rcvar turnOn)
          else
            Except.ok (false, w)
        else
          Except.ok (true, writeSwitch w config0 rcvar turnOn)

/-- `enable(name, **kwargs)`. -/
def enable (w : World) (name : String) (kw : Option String) :
    Except SaltError (Bool × World) :=
  _switch w name true kw

/-- `disable(name, **kwargs)`. -/
def disable (w : World) (name : String) (kw : Option String) :
    Except SaltError (Bool × World) :=
  _switch w name false kw

/-!  Embedding of `salt/states/cron.py`. -/

/-- The dictionary returned by the `cron.present` / `cron.absent` state
functions: `{'name': ..., 'result': ..., 'changes': ..., 'comment': ...}`.
The `changes` dictionary is modelled as an association list. -/
structure StateRet where
  name : String
  result : Bool
  changes : List (String × String)
  comment : String
deriving DecidableEq

/-- The result dictionary built by `cron.present` from the string `data`
returned by `__salt__['cron.set_job']`. -/
def present_ret (name user data : String) : StateRet :=
  if data = "present" then
    { name := name, result := true, changes := [],
      comment := "Cron " ++ name ++ " already present" }
  else if data = "new" then
    { name := name, result := true, changes := [(user, name)],
      comment := "Cron " ++ name ++ " added to " ++ user ++ "\x27s crontab" }
  else if data = "updated" then
    { name := name, result := true, changes := [(user, name)],
      comment := "Cron " ++ name ++ " updated" }
  else
    { name := name, result := false, changes := [],
      comment := "Cron " ++ name ++ " for user " ++ user ++
        " failed to commit with error \n" ++ data }

/-- The result dictionary built by `cron.absent` from the string `data`
returned by `__salt__['cron.rm_job']`. -/
def absent_ret (name user data : String) : StateRet :=
  if data = "absent" then
    { name := name, result := true, changes := [],
      comment := "Cron " ++ name ++ " already absent" }
  else if data = "removed" then
    { name := name, result := true, changes := [(user, name)],
      comment := "Cron " ++ name ++ " removed from " ++ user ++ "\x27s crontab" }
  else
    { name := name, result := false, changes := [],
      comment := "Cron " ++ name ++ " for user " ++ user ++
        " failed to commit with error \n" ++ data }

/-- One crontab entry, keyed as in the spec glossary by
user + schedule + command. -/
structure CronSpec where
  user : String
  minute : String
  hour : String
  daymonth : String
  month : String
  dayweek : String
  cmd : String
deriving DecidableEq

/-- Whether `e` manages the same job as `j` (same user and command), the
identity under which an existing entry is updated in place. -/
def cronMatch (j e : CronSpec) : Bool :=
  e.user == j.user && e.cmd == j.cmd

/-- Modelled from the spec: `cron.set_job` lives in `salt/modules/cron.py`,
which is not under `src/`.  Following spec section 4.2 and section 8, it
reads the current crontab, returns `'present'` and changes nothing when the
exact desired entry already exists, rewrites the entry for the same
user/command with the new schedule returning `'updated'`, and otherwise
appends a new entry returning `'new'`. -/
def set_job (tab : List CronSpec) (j : CronSpec) : String × List CronSpec :=
  if j ∈ tab then ("present", tab)
  else if tab.any (fun e => cronMatch j e) then
    ("updated", tab.map (fun e => if cronMatch j e then j else e))
  else ("new", tab ++ [j])

/-- Modelled from the spec: `cron.rm_job` lives in `salt/modules/cron.py`,
which is not under `src/`.  Following spec section 4.2 and section 8, it
removes the entries managed under the job's identity returning `'removed'`,
and returns `'absent'` leaving the crontab unchanged when none exists. -/
def rm_job (tab : List CronSpec) (j : CronSpec) : String × List CronSpec :=
  if tab.any (fun e => cronMatch j e) then
    ("removed", tab.filter (fun e => !cronMatch j e))
  else ("absent", tab)

/-- `cron.present` composed with the (spec-modelled) `cron.set_job` it
calls: returns the state dictionary and the resulting crontab. -/
def cron_present (tab : List CronSpec) (name user minute hour daymonth month dayweek : String) :
    StateRet × List CronSpec :=
  let r := set_job tab
    { user := user, minute := minute, hour := hour, daymonth := daymonth,
      month := month, dayweek := dayweek, cmd := name }
  (present_ret name user r.1, r.2)

/-- `cron.absent` composed with the (spec-modelled) `cron.rm_job` it
calls: returns the state dictionary and the resulting crontab. -/
def cron_absent (tab : List CronSpec) (name user minute hour daymonth month dayweek : String) :
    StateRet × List CronSpec :=
  let r := rm_job tab
    { user := user, minute := minute, hour := hour, daymonth := daymonth,
      month := month, dayweek := dayweek, cmd := name }
  (absent_ret name user r.1, r.2)

/-- The sequence of file states the config file passes through during the
write `with fopen(config, 'w') as ofile: ofile.writelines(nlines)`:
opening with mode `'w'` truncates the file in place, then the lines are
written in order, so after `k` steps the file holds the first `k` new
lines.  The last state is the completed write. -/
def writeTraceStates (nlines : List String) : List (List String) :=
  (List.range (nlines.length + 1)).map (fun k => nlines.take k)

/-- Atomicity of a write, as claimed by the spec: a failure at any point
before completion leaves the prior file content intact, i.e. every
non-final state of the write trace equals the prior content. -/
def writeIsAtomicFor (prior nlines : List String) : Prop :=
  ∀ s ∈ (writeTraceStates nlines).dropLast, s = prior

/-! ### Helper lemmas about the string model -/

lemma strData_append (a b : String) : (a ++ b).data = a.data ++ b.data := by
  cases a; cases b; rfl

lemma pyStartsWith_iff (s p : String) : pyStartsWith s p = true ↔ p.data <+: s.data := by
  simp [pyStartsWith, List.isPrefixOf_iff_prefix]

lemma rewriteLine_data (rcvar val l : String) :
    (rewriteLine rcvar val l).data =
      rcvar.data ++ '=' :: '\x22' :: (val.data ++ '\x22' :: (pyRest l).data) := by
  have h1 : ("=\x22" : String).data = ['=', '\x22'] := rfl
  have h2 : ("\x22" : String).data = ['\x22'] := rfl
  simp [rewriteLine, strData_append, h1, h2]

lemma appendLine_data (rcvar val : String) :
    (appendLine rcvar val).data =
      rcvar.data ++ '=' :: '\x22' :: (val.data ++ ['\x22', '\n']) := by
  have h1 : ("=\x22" : String).data = ['=', '\x22'] := rfl
  have h2 : ("\x22\n" : String).data = ['\x22', '\n'] := rfl
  simp [appendLine, strData_append, h1, h2]

lemma pyStartsWith_rewriteLine (rcvar val l : String) :
    pyStartsWith (rewriteLine rcvar val l) (rcvar ++ "=") = true := by
  rw [pyStartsWith_iff, strData_append, rewriteLine_data]
  have h : ("=" : String).data = ['='] := rfl
  rw [h]
  exact ⟨'\x22' :: (val.data ++ '\x22' :: (pyRest l).data), by simp⟩

lemma pyStartsWith_rewriteLine_val (rcvar val l : String) :
    pyStartsWith (rewriteLine rcvar val l) (rcvar ++ "=\x22" ++ val ++ "\x22") = true := by
  rw [pyStartsWith_iff, rewriteLine_data]
  have h : (rcvar ++ "=\x22" ++ val ++ "\x22").data =
      rcvar.data ++ '=' :: '\x22' :: (val.data ++ ['\x22']) := by
    have h1 : ("=\x22" : String).data = ['=', '\x22'] := rfl
    have h2 : ("\x22" : String).data = ['\x22'] := rfl
    simp [strData_append, h1, h2]
  rw [h]
  exact ⟨(pyRest l).data, by simp⟩

lemma pyStartsWith_appendLine (rcvar val : String) :
    pyStartsWith (appendLine rcvar val) (rcvar ++ "=") = true := by
  rw [pyStartsWith_iff, strData_append, appendLine_data]
  have h : ("=" : String).data = ['='] := rfl
  rw [h]
  exact ⟨'\x22' :: (val.data ++ ['\x22', '\n']), by simp⟩

lemma pyStartsWith_appendLine_val (rcvar val : String) :
    pyStartsWith (appendLine rcvar val) (rcvar ++ "=\x22" ++ val ++ "\x22") = true := by
  rw [pyStartsWith_iff, appendLine_data]
  have h : (rcvar ++ "=\x22" ++ val ++ "\x22").data =
      rcvar.data ++ '=' :: '\x22' :: (val.data ++ ['\x22']) := by
    have h1 : ("=\x22" : String).data = ['=', '\x22'] := rfl
    have h2 : ("\x22" : String).data = ['\x22'] := rfl
    simp [strData_append, h1, h2]
  rw [h]
  exact ⟨['\n'], by simp⟩

lemma pyStartsWith_mono (s p q : String) (h : pyStartsWith s (p ++ q) = true) :
    pyStartsWith s p = true := by
  rw [pyStartsWith_iff] at h ⊢
  rw [strData_append] at h
  exact (List.prefix_append p.data q.data).trans h

lemma pyStartsWith_extend_false (s p q : String) (h : pyStartsWith s p = false) :
    pyStartsWith s (p ++ q) = false := by
  cases hb : pyStartsWith s (p ++ q) with
  | false => rfl
  | true => exact absurd (pyStartsWith_mono s p q hb) (by simp [h])

lemma valPrefix_eq (rcvar val : String) :
    rcvar ++ "=\x22" ++ val ++ "\x22" = (rcvar ++ "=") ++ ("\x22" ++ (val ++ "\x22")) := by
  apply String.ext
  have h1 : ("=\x22" : String).data = ['=', '\x22'] := rfl
  have h2 : ("\x22" : String).data = ['\x22'] := rfl
  have h3 : ("=" : String).data = ['='] := rfl
  simp [strData_append, h1, h2, h3]

lemma leChars_total : ∀ a b, leChars a b = true ∨ leChars b a = true := by
  intro a
  induction a with
  | nil => intro b; left; rfl
  | cons x xs ih =>
    intro b
    cases b with
    | nil => right; rfl
    | cons y ys =>
      by_cases h1 : x.toNat < y.toNat
      · left; simp [leChars, h1]
      · by_cases h2 : y.toNat < x.toNat
        · right; simp [leChars, h1, h2]
        · rcases ih ys with h | h
          · left; simp [leChars, h1, h2, h]
          · right; simp [leChars, h1, h2, h]

lemma leChars_trans : ∀ a b c, leChars a b = true → leChars b c = true →
    leChars a c = true := by
  intro a
  induction a with
  | nil => intro b c _ _; rfl
  | cons x xs ih =>
    intro b c hab hbc
    cases b with
    | nil => simp [leChars] at hab
    | cons y ys =>
      cases c with
      | nil => simp [leChars] at hbc
      | cons z zs =>
        simp only [leChars] at hab hbc ⊢
        split_ifs at hab hbc ⊢ with g1 g2 g3 g4 g5 g6 <;>
          first
            | rfl
            | omega
            | (exact ih ys zs hab hbc)

instance strLeIsTotal : IsTotal String (fun a b => strLe a b = true) :=
  ⟨fun a b => leChars_total a.data b.data⟩

instance strLeIsTrans : IsTrans String (fun a b => strLe a b = true) :=
  ⟨fun a b c => leChars_trans a.data b.data c.data⟩

lemma sortStr_sorted (l : List String) :
    List.Sorted (fun a b => strLe a b = true) (sortStr l) :=
  List.sorted_insertionSort (fun a b => strLe a b = true) l

lemma mem_sortStr (x : String) (l : List String) : x ∈ sortStr l ↔ x ∈ l :=
  (List.perm_insertionSort (fun a b => strLe a b = true) l).mem_iff

/-! ### Claims C3 and C8 -/

/-- C3: for every string returned by the cron adapter, whenever
`cron.present` or `cron.absent` builds a result dictionary with
`result == False`, its `changes` dictionary is empty. -/
theorem C3_error_no_changes (name user data : String) :
    ((present_ret name user data).result = false → (present_ret name user data).changes = []) ∧
    ((absent_ret name user data).result = false → (absent_ret name user data).changes = []) := by
  constructor
  · intro h
    unfold present_ret at h ⊢
    split_ifs at h ⊢
    simp_all
  · intro h
    unfold absent_ret at h ⊢
    split_ifs at h ⊢
    simp_all

theorem C3_witness :
    (present_ret "job1" "root" "boom").changes = [] ∧
    (absent_ret "job1" "root" "boom").changes = [] :=
  ⟨(C3_error_no_changes "job1" "root" "boom").1 (by decide),
   (C3_error_no_changes "job1" "root" "boom").2 (by decide)⟩

/-- C8: the `_switch` rewrite maps each line pointwise, leaving every line
that does not start with `rcvar + "="` byte-for-byte unchanged in its
original position, and replacing each matching line by
`rcvar="val"` followed by everything after the line's first
whitespace-delimited token (so trailing comments are kept). -/
theorem C8_frame_property (rcvar val : String) (lines : List String) :
    (switchLines rcvar val lines).1 =
      lines.map (fun l => if pyStartsWith l (rcvar ++ "=") then
        rcvar ++ "=\x22" ++ val ++ "\x22" ++ pyRest l else l) := by
  induction lines with
  | nil => rfl
  | cons l rest ih =>
    simp only [switchLines, List.map_cons]
    split_ifs with h <;> simp_all [rewriteLine]

/-! ### Lemmas about the rewrite loop -/

lemma switchLines_edited (rcvar val : String) (lines : List String) :
    (switchLines rcvar val lines).2 = lines.any (fun l => pyStartsWith l (rcvar ++ "=")) := by
  induction lines with
  | nil => rfl
  | cons l rest ih =>
    simp only [switchLines, List.any_cons]
    split_ifs with h <;> simp [h, ih]

lemma switchLines_no_edit (rcvar val : String) (lines : List String)
    (h : (switchLines rcvar val lines).2 = false) :
    (switchLines rcvar val lines).1 = lines := by
  induction lines with
  | nil => rfl
  | cons l rest ih =>
    simp only [switchLines] at h ⊢
    split_ifs at h ⊢ with hl
    show l :: (switchLines rcvar val rest).1 = l :: rest
    rw [ih h]

lemma switchLines_countP (rcvar val : String) (lines : List String) :
    (switchLines rcvar val lines).1.countP (fun l => pyStartsWith l (rcvar ++ "=")) =
      lines.countP (fun l => pyStartsWith l (rcvar ++ "=")) := by
  induction lines with
  | nil => rfl
  | cons l rest ih =>
    simp only [switchLines]
    split_ifs with h
    · simp [List.countP_cons, h, pyStartsWith_rewriteLine, ih]
    · simp [List.countP_cons, h, ih]

lemma switchLines_countP_val (rcvar val : String) (lines : List String) :
    (switchLines rcvar val lines).1.countP (fun l => pyStartsWith l (rcvar ++ "=")) =
      (switchLines rcvar val lines).1.countP
        (fun l => pyStartsWith l (rcvar ++ "=\x22" ++ val ++ "\x22")) := by
  induction lines with
  | nil => rfl
  | cons l rest ih =>
    simp only [switchLines]
    split_ifs with h
    · simp [List.countP_cons, pyStartsWith_rewriteLine, pyStartsWith_rewriteLine_val, ih]
    · have h0 : pyStartsWith l (rcvar ++ "=") = false := by simpa using h
      have hv : pyStartsWith l (rcvar ++ "=\x22" ++ val ++ "\x22") = false := by
        rw [valPrefix_eq]
        exact pyStartsWith_extend_false l (rcvar ++ "=") ("\x22" ++ (val ++ "\x22")) h0
      simp [List.countP_cons, h0, hv, ih]

/-! ### Claim C5 -/

/-- C5 counterexample: a config file holding the line
`apache22_enable="NO"` twice is rewritten by enable to a file holding the
line for that rcvar twice, not exactly once — `_switch` rewrites every
matching line in place and never deletes duplicates. -/
theorem C5_counterexample :
    ¬ ((switchNlines "apache22_enable" "YES"
        (some ["apache22_enable=\x22NO\x22\n", "apache22_enable=\x22NO\x22\n"])).countP
          (fun l => pyStartsWith l ("apache22_enable" ++ "=")) = 1) := by
  decide

/-- C5 amended: a successful enable/disable leaves as many lines setting
the rcvar as the input file had (or one when it had none, the appended
line); every line for the rcvar in the rewritten file carries the newly
written value.  Duplicates are all rewritten, not collapsed. -/
theorem C5_rewrite_all_matches (rcvar val : String) (lines : List String) :
    ((switchNlines rcvar val (some lines)).countP
        (fun l => pyStartsWith l (rcvar ++ "=")) =
      max (lines.countP (fun l => pyStartsWith l (rcvar ++ "="))) 1) ∧
    ((switchNlines rcvar val (some lines)).countP
        (fun l => pyStartsWith l (rcvar ++ "=")) =
      (switchNlines rcvar val (some lines)).countP
        (fun l => pyStartsWith l (rcvar ++ "=\x22" ++ val ++ "\x22"))) := by
  have hed := switchLines_edited rcvar val lines
  have hcnt := switchLines_countP rcvar val lines
  have hcntv := switchLines_countP_val rcvar val lines
  simp only [switchNlines]
  cases he : (switchLines rcvar val lines).2 with
  | true =>
    rw [he] at hed
    simp only [he, if_true]
    refine ⟨?_, ?_⟩
    · rw [hcnt]
      have : 1 ≤ lines.countP (fun l => pyStartsWith l (rcvar ++ "=")) := by
        rcases List.any_eq_true.mp hed.symm with ⟨x, hx, hpx⟩
        calc 1 = [x].countP (fun l => pyStartsWith l (rcvar ++ "=")) := by simp [hpx]
        _ ≤ _ := List.Sublist.countP_le _ ((List.singleton_sublist).mpr hx)
      omega
    · exact hcntv
  | false =>
    rw [he] at hed
    have heq : (switchLines rcvar val lines).1 = lines := switchLines_no_edit rcvar val lines he
    simp only [he, Bool.false_eq_true, if_false]
    rw [heq] at hcntv ⊢
    have hz : lines.countP (fun l => pyStartsWith l (rcvar ++ "=")) = 0 := by
      rw [List.countP_eq_zero]
      intro a ha
      have := List.any_eq_false.mp hed.symm a ha
      simpa using this
    have hzv : lines.countP (fun l => pyStartsWith l (rcvar ++ "=\x22" ++ val ++ "\x22")) = 0 := by
      rw [← hcntv]
      exact hz
    constructor
    · rw [List.countP_append, hz]
      simp [List.countP_cons, pyStartsWith_appendLine]
    · rw [List.countP_append, List.countP_append, hz, hzv]
      simp [List.countP_cons, pyStartsWith_appendLine, pyStartsWith_appendLine_val]

/-! ### Claim C4 -/

/-- C4 counterexample: for a config file whose prior content is the single
line `apache22_enable="NO"`, the write performed by a successful
`enable` is not atomic: opening the file with mode `'w'` truncates it, so
the trace of file states contains a non-final state (the empty file) that
differs from the prior content. -/
theorem C4_counterexample :
    ¬ writeIsAtomicFor ["apache22_enable=\x22NO\x22\n"]
        (switchNlines "apache22_enable" "YES" (some ["apache22_enable=\x22NO\x22\n"])) := by
  unfold writeIsAtomicFor
  decide

/-- C4 amended: the write truncates the config file in place.  The first
state of the write trace is the empty file, every state is a prefix of the
newly written lines, and only the final state is the full new content — so
a failure midway leaves a (possibly empty) prefix of the new lines, not the
prior content. -/
theorem C4_truncate_in_place (rcvar val : String) (content : Option (List String)) :
    (writeTraceStates (switchNlines rcvar val content)).head? = some [] ∧
    (writeTraceStates (switchNlines rcvar val content)).getLast? =
      some (switchNlines rcvar val content) ∧
    (∀ s ∈ writeTraceStates (switchNlines rcvar val content),
      s <+: switchNlines rcvar val content) := by
  refine ⟨?_, ?_, ?_⟩
  · rw [writeTraceStates, List.range_succ_eq_map]
    simp
  · rw [writeTraceStates, List.range_succ, List.map_append]
    simp
  · intro s hs
    rw [writeTraceStates] at hs
    rcases List.mem_map.mp hs with ⟨k, _, hk⟩
    rw [← hk]
    exact List.take_prefix k (switchNlines rcvar val content)

/-! ### Claim C6 -/

/-- C6: when no line of the existing config file starts with
`rcvar + "="`, a successful enable/disable appends exactly one new line
`rcvar="YES"` (resp. `rcvar="NO"`) at the end of the file, and a
missing config file is written as just that line. -/
theorem C6_append_when_missing (rcvar : String) (turnOn : Bool) (lines : List String)
    (h : ∀ l ∈ lines, pyStartsWith l (rcvar ++ "=") = false) :
    switchNlines rcvar (switchVal turnOn) (some lines) =
      lines ++ [appendLine rcvar (switchVal turnOn)] ∧
    switchNlines rcvar (switchVal turnOn) none = [appendLine rcvar (switchVal turnOn)] := by
  refine ⟨?_, rfl⟩
  have hed : (switchLines rcvar (switchVal turnOn) lines).2 = false := by
    rw [switchLines_edited, List.any_eq_false]
    intro x hx
    simp [h x hx]
  have heq := switchLines_no_edit rcvar (switchVal turnOn) lines hed
  simp only [switchNlines, hed, Bool.false_eq_true, if_false, heq]

theorem C6_witness :
    switchNlines "sshd_enable" (switchVal true) (some ["# comment\n", "keyrate=\x22fast\x22\n"]) =
      ["# comment\n", "keyrate=\x22fast\x22\n", appendLine "sshd_enable" (switchVal true)] :=
  (C6_append_when_missing "sshd_enable" true ["# comment\n", "keyrate=\x22fast\x22\n"]
    (by decide)).1

/-! ### Claim C2 -/

/-- C2: for a service name not in `get_all()`, both `enable` and `disable`
return `False` and leave the world — in particular every config file —
untouched: the `available` gate fails before any write. -/
theorem C2_unknown_service (w : World) (name : String) (kw : Option String)
    (all : List String) (ha : get_all w = Except.ok all) (hn : name ∉ all) :
    enable w name kw = Except.ok (false, w) ∧ disable w name kw = Except.ok (false, w) := by
  have hav : available w name = Except.ok false := by
    unfold available
    rw [ha]
    simp [hn]
  constructor
  · unfold enable _switch
    rw [hav]
  · unfold disable _switch
    rw [hav]

/-- Sample world: the `service` binary exists, `service -l` lists `b`, `a`
and the all-uppercase header `CRON`, `service -e` lists `/etc/rc.d/a`, and
nothing else is configured. -/
def sampleWorld : World :=
  { whichService := some "/usr/sbin/service",
    listOutput := ["b", "a", "CRON"],
    enabledOutput := ["/etc/rc.d/a"],
    rcvarOutput := [],
    rcConfD := [],
    rcConfDirExists := true,
    configOption := "/etc/rc.conf",
    files := [] }

theorem C2_witness :
    enable sampleWorld "nginx" none = Except.ok (false, sampleWorld) :=
  (C2_unknown_service sampleWorld "nginx" none ["a", "b"] (by decide) (by decide)).1

/-! ### Claim C9 -/

/-- C9: `disabled(name)` is the boolean negation of `enabled(name)` for
every name (including the propagation of any exception), and a service not
in `get_all()` reports `enabled == False`, hence `disabled == True`. -/
theorem C9_disabled_negation (w : World) (name : String) (all : List String)
    (ha : get_all w = Except.ok all) (hn : name ∉ all) :
    (∀ n, disabled w n = Except.map (fun b => !b) (enabled w n)) ∧
    enabled w name = Except.ok false ∧ disabled w name = Except.ok true := by
  have hneg : ∀ n, disabled w n = Except.map (fun b => !b) (enabled w n) := by
    intro n
    unfold disabled
    cases enabled w n <;> rfl
  have hav : available w name = Except.ok false := by
    unfold available
    rw [ha]
    simp [hn]
  have hen : enabled w name = Except.ok false := by
    unfold enabled
    rw [hav]
  refine ⟨hneg, hen, ?_⟩
  rw [hneg name, hen]
  rfl

theorem C9_witness :
    enabled sampleWorld "nginx" = Except.ok false ∧
    disabled sampleWorld "nginx" = Except.ok true :=
  ⟨(C9_disabled_negation sampleWorld "nginx" ["a", "b"] (by decide) (by decide)).2.1,
   (C9_disabled_negation sampleWorld "nginx" ["a", "b"] (by decide) (by decide)).2.2⟩

/-! ### Claim C10 -/

/-- C10: `get_disabled()` returns exactly the sorted set difference
`get_all() - get_enabled()`: membership in the result is membership in
`get_all` minus `get_enabled`, all three listings are sorted, and every
available service appears in exactly one of the two listings. -/
theorem C10_partition (w : World) (a e d : List String)
    (ha : get_all w = Except.ok a) (he : get_enabled w = Except.ok e)
    (hd : get_disabled w = Except.ok d) :
    (∀ x, x ∈ d ↔ (x ∈ a ∧ x ∉ e)) ∧
    List.Sorted (fun p q => strLe p q = true) a ∧
    List.Sorted (fun p q => strLe p q = true) e ∧
    List.Sorted (fun p q => strLe p q = true) d ∧
    (∀ x ∈ a, (x ∈ e ∧ x ∉ d) ∨ (x ∉ e ∧ x ∈ d)) := by
  unfold get_disabled at hd
  rw [he, ha] at hd
  have hd2 : sortStr ((a.filter (fun s => decide (s ∉ e))).dedup) = d := by
    injection hd
  have hmem : ∀ x, x ∈ d ↔ (x ∈ a ∧ x ∉ e) := by
    intro x
    rw [← hd2, mem_sortStr, List.mem_dedup, List.mem_filter]
    simp
  have hsa : List.Sorted (fun p q => strLe p q = true) a := by
    unfold get_all at ha
    cases hc : cmdPath w with
    | error er => rw [hc] at ha; cases ha
    | ok p =>
      rw [hc] at ha
      have h2 : sortStr (w.listOutput.filter (fun srv => !pyIsUpper srv)) = a := by
        injection ha
      rw [← h2]
      exact sortStr_sorted _
  have hse : List.Sorted (fun p q => strLe p q = true) e := by
    unfold get_enabled at he
    split at he
    · cases he
    · split at he
      · cases he
      · split at he
        · cases he
        · injection he with h2
          rw [← h2]
          exact sortStr_sorted _
  have hsd : List.Sorted (fun p q => strLe p q = true) d := by
    rw [← hd2]
    exact sortStr_sorted _
  refine ⟨hmem, hsa, hse, hsd, ?_⟩
  intro x hx
  by_cases hxe : x ∈ e
  · exact Or.inl ⟨hxe, fun hxd => ((hmem x).mp hxd).2 hxe⟩
  · exact Or.inr ⟨hxe, (hmem x).mpr ⟨hx, hxe⟩⟩

theorem C10_witness :
    ("b" ∈ ["b"] ↔ ("b" ∈ ["a", "b"] ∧ "b" ∉ ["a"])) ∧
    List.Sorted (fun p q => strLe p q = true) ["b"] :=
  ⟨(C10_partition sampleWorld ["a", "b"] ["a"] ["b"]
      (by decide) (by decide) (by decide)).1 "b",
   (C10_partition sampleWorld ["a", "b"] ["a"] ["b"]
      (by decide) (by decide) (by decide)).2.2.2.1⟩

/-! ### Claim C7 -/

/-- A world in which `salt.utils.which('service')` finds nothing: the
underlying `service` executable is missing. -/
def noCmdWorld : World :=
  { whichService := none,
    listOutput := ["sshd"],
    enabledOutput := [],
    rcvarOutput := [],
    rcConfD := [],
    rcConfDirExists := true,
    configOption := "/etc/rc.conf",
    files := [] }

/-- C7 counterexample: when the `service` executable is missing, `enable`
does not return a structured error value: the `CommandNotFoundError`
raised by `_cmd` propagates uncaught across the caller boundary (modelled
as `Except.error`), refuting the claim that every failure of every public
operation is reported as a structured return value. -/
theorem C7_counterexample :
    enable noCmdWorld "sshd" none = Except.error SaltError.commandNotFound ∧
    get_all noCmdWorld = Except.error SaltError.commandNotFound := by
  exact ⟨rfl, rfl⟩

/-- C7 amended: the cron state functions do report every adapter failure
as a structured in-band value (`result = False`, never an exception), but
the freebsdservice operations raise `CommandNotFoundError` through the
caller boundary whenever the `service` executable is missing. -/
theorem C7_error_reporting :
    (∀ name user data, data ≠ "present" → data ≠ "new" → data ≠ "updated" →
      (present_ret name user data).result = false) ∧
    (∀ name user data, data ≠ "absent" → data ≠ "removed" →
      (absent_ret name user data).result = false) ∧
    (∀ w name kw, w.whichService = none →
      enable w name kw = Except.error SaltError.commandNotFound ∧
      disable w name kw = Except.error SaltError.commandNotFound ∧
      enabled w name = Except.error SaltError.commandNotFound ∧
      disabled w name = Except.error SaltError.commandNotFound ∧
      get_all w = Except.error SaltError.commandNotFound ∧
      get_enabled w = Except.error SaltError.commandNotFound ∧
      get_disabled w = Except.error SaltError.commandNotFound ∧
      available w name = Except.error SaltError.commandNotFound) := by
  refine ⟨?_, ?_, ?_⟩
  · intro name user data h1 h2 h3
    unfold present_ret
    split_ifs <;> simp_all
  · intro name user data h1 h2
    unfold absent_ret
    split_ifs <;> simp_all
  · intro w name kw hw
    have hc : cmdPath w = Except.error SaltError.commandNotFound := by
      unfold cmdPath
      rw [hw]
    have hga : get_all w = Except.error SaltError.commandNotFound := by
      unfold get_all
      rw [hc]
    have hav : available w name = Except.error SaltError.commandNotFound := by
      unfold available
      rw [hga]
    have hen : enabled w name = Except.error SaltError.commandNotFound := by
      unfold enabled
      rw [hav]
    have hge : get_enabled w = Except.error SaltError.commandNotFound := by
      unfold get_enabled
      rw [hc]
    have hgd : get_disabled w = Except.error SaltError.commandNotFound := by
      unfold get_disabled
      rw [hge]
    have hsw : ∀ t, _switch w name t kw = Except.error SaltError.commandNotFound := by
      intro t
      unfold _switch
      rw [hav]
    refine ⟨hsw true, hsw false, hen, ?_, hga, hge, hgd, hav⟩
    unfold disabled
    rw [hen]

theorem C7_witness :
    (present_ret "job1" "root" "fail").result = false ∧
    disable noCmdWorld "sshd" none = Except.error SaltError.commandNotFound :=
  ⟨C7_error_reporting.1 "job1" "root" "fail" (by decide) (by decide) (by decide),
   (C7_error_reporting.2.2 noCmdWorld "sshd" none rfl).2.1⟩

/-! ### Idempotence machinery for the `_switch` rewrite -/

lemma takeWhile_append_all {p : Char → Bool} (a b : List Char)
    (h : ∀ c ∈ a, p c = true) :
    (a ++ b).takeWhile p = a ++ b.takeWhile p := by
  induction a with
  | nil => simp
  | cons x xs ih =>
    simp only [List.cons_append, List.takeWhile_cons, h x (by simp), if_true]
    rw [ih (fun c hc => h c (by simp [hc]))]

lemma drop_takeWhile_length {α : Type} (p : α → Bool) (l : List α) :
    l.drop (l.takeWhile p).length = l.dropWhile p := by
  induction l with
  | nil => rfl
  | cons x xs ih =>
    by_cases h : p x = true
    · simp [List.takeWhile_cons, List.dropWhile_cons, h, ih]
    · simp [List.takeWhile_cons, List.dropWhile_cons, h]

lemma dropWhile_shape {α : Type} (p : α → Bool) (l : List α) :
    l.dropWhile p = [] ∨ ∃ c rest, l.dropWhile p = c :: rest ∧ p c = false := by
  induction l with
  | nil => left; rfl
  | cons x xs ih =>
    by_cases h : p x = true
    · rw [List.dropWhile_cons, if_pos h]
      exact ih
    · right
      exact ⟨x, xs, by rw [List.dropWhile_cons, if_neg h], by simpa using h⟩

lemma takeWhile_nonws_dropWhile (l : List Char) :
    ((l.dropWhile (fun x => !x.isWhitespace)).takeWhile (fun x => !x.isWhitespace)) = [] := by
  rcases dropWhile_shape (fun x => !x.isWhitespace) l with h | ⟨c, rest, heq, hpc⟩
  · rw [h]
    rfl
  · rw [heq, List.takeWhile_cons, hpc]
    simp

lemma pyFirstTok_shape (a b : List Char) (ha : a ≠ [])
    (hnws : ∀ c ∈ a, c.isWhitespace = false)
    (hb : b.takeWhile (fun c => !c.isWhitespace) = []) :
    pyFirstTok (a ++ b) = a := by
  unfold pyFirstTok
  have hdw : (a ++ b).dropWhile Char.isWhitespace = a ++ b := by
    cases a with
    | nil => exact absurd rfl ha
    | cons x xs =>
      simp only [List.cons_append, List.dropWhile_cons, hnws x (by simp)]
      simp
  rw [hdw, takeWhile_append_all a b (fun c hc => by simp [hnws c hc]), hb, List.append_nil]

lemma pyRest_shape (a b : List Char) (ha : a ≠ [])
    (hnws : ∀ c ∈ a, c.isWhitespace = false)
    (hb : b.takeWhile (fun c => !c.isWhitespace) = []) (line : String)
    (hline : line.data = a ++ b) :
    (pyRest line).data = b := by
  unfold pyRest
  rw [hline, pyFirstTok_shape a b ha hnws hb]
  exact List.drop_left a b

lemma pyRest_eq_dropWhile (l : String) (c : Char) (t : List Char)
    (hl : l.data = c :: t) (hc : c.isWhitespace = false) :
    (pyRest l).data = l.data.dropWhile (fun x => !x.isWhitespace) := by
  unfold pyRest pyFirstTok
  rw [hl]
  rw [List.dropWhile_cons, if_neg (by simp [hc])]
  rw [drop_takeWhile_length]

lemma pyRest_ws_head (rcvar l : String)
    (hrc : ∀ c ∈ rcvar.data, c.isWhitespace = false) (hrcne : rcvar.data ≠ [])
    (hm : pyStartsWith l (rcvar ++ "=") = true) :
    (pyRest l).data.takeWhile (fun x => !x.isWhitespace) = [] := by
  rcases (pyStartsWith_iff l (rcvar ++ "=")).mp hm with ⟨t, ht⟩
  rw [strData_append] at ht
  have heqd : ("=" : String).data = ['='] := rfl
  rw [heqd] at ht
  cases hrd : rcvar.data with
  | nil => exact absurd hrd hrcne
  | cons c cs =>
    rw [hrd] at ht
    have hl : l.data = c :: (cs ++ '=' :: t) := by
      rw [← ht]
      simp
    have hc : c.isWhitespace = false := hrc c (by rw [hrd]; simp)
    rw [pyRest_eq_dropWhile l c _ hl hc, hl]
    rw [List.dropWhile_cons, if_pos (by simp [hc])]
    exact takeWhile_nonws_dropWhile (cs ++ '=' :: t)

lemma aux_nonws (rcvar val : String)
    (hrc : ∀ c ∈ rcvar.data, c.isWhitespace = false)
    (hval : ∀ c ∈ val.data, c.isWhitespace = false) :
    ∀ c ∈ rcvar.data ++ '=' :: '\x22' :: (val.data ++ ['\x22']), c.isWhitespace = false := by
  intro c hc
  simp only [List.mem_append, List.mem_cons, List.mem_singleton] at hc
  rcases hc with h | h | h | h | h
  · exact hrc c h
  · rw [h]; decide
  · rw [h]; decide
  · exact hval c h
  · rcases h with h | h
    · rw [h]; decide
    · simp at h

lemma aux_ne_nil (rcvar val : String) :
    rcvar.data ++ '=' :: '\x22' :: (val.data ++ ['\x22']) ≠ [] := by
  intro h
  cases hr : rcvar.data <;> rw [hr] at h <;> simp at h

lemma rewriteLine_data_aux (rcvar val l : String) :
    (rewriteLine rcvar val l).data =
      (rcvar.data ++ '=' :: '\x22' :: (val.data ++ ['\x22'])) ++ (pyRest l).data := by
  rw [rewriteLine_data]
  simp

lemma rewriteLine_fix (rcvar val l : String)
    (hrc : ∀ c ∈ rcvar.data, c.isWhitespace = false)
    (hval : ∀ c ∈ val.data, c.isWhitespace = false)
    (hrest : (pyRest l).data.takeWhile (fun c => !c.isWhitespace) = []) :
    rewriteLine rcvar val (rewriteLine rcvar val l) = rewriteLine rcvar val l := by
  have hrest2 : (pyRest (rewriteLine rcvar val l)).data = (pyRest l).data :=
    pyRest_shape _ _ (aux_ne_nil rcvar val) (aux_nonws rcvar val hrc hval) hrest _
      (rewriteLine_data_aux rcvar val l)
  unfold rewriteLine
  congr 1
  exact String.ext hrest2

lemma pyRest_appendLine (rcvar val : String)
    (hrc : ∀ c ∈ rcvar.data, c.isWhitespace = false)
    (hval : ∀ c ∈ val.data, c.isWhitespace = false) :
    (pyRest (appendLine rcvar val)).data = ['\n'] := by
  apply pyRest_shape _ _ (aux_ne_nil rcvar val) (aux_nonws rcvar val hrc hval)
  · rfl
  · rw [appendLine_data]
    simp

lemma rewriteLine_appendLine (rcvar val : String)
    (hrc : ∀ c ∈ rcvar.data, c.isWhitespace = false)
    (hval : ∀ c ∈ val.data, c.isWhitespace = false) :
    rewriteLine rcvar val (appendLine rcvar val) = appendLine rcvar val := by
  apply String.ext
  rw [rewriteLine_data, pyRest_appendLine rcvar val hrc hval, appendLine_data]

lemma switchLines_idem (rcvar val : String)
    (hrc : ∀ c ∈ rcvar.data, c.isWhitespace = false) (hrcne : rcvar.data ≠ [])
    (hval : ∀ c ∈ val.data, c.isWhitespace = false) (lines : List String) :
    switchLines rcvar val ((switchLines rcvar val lines).1) =
      ((switchLines rcvar val lines).1, (switchLines rcvar val lines).2) := by
  induction lines with
  | nil => rfl
  | cons l rest ih =>
    simp only [switchLines]
    split_ifs with h
    · simp only [switchLines, pyStartsWith_rewriteLine rcvar val l, if_true, ih]
      rw [rewriteLine_fix rcvar val l hrc hval (pyRest_ws_head rcvar l hrc hrcne h)]
    · have h0 : pyStartsWith l (rcvar ++ "=") = false := by simpa using h
      simp only [switchLines, h0, Bool.false_eq_true, if_false, ih]

lemma switchLines_append (rcvar val : String) (a b : List String) :
    switchLines rcvar val (a ++ b) =
      ((switchLines rcvar val a).1 ++ (switchLines rcvar val b).1,
        (switchLines rcvar val a).2 || (switchLines rcvar val b).2) := by
  induction a with
  | nil => simp [switchLines]
  | cons l rest ih =>
    simp only [List.cons_append, switchLines, ih]
    split_ifs <;> simp [ih]

lemma switchLines_single_append (rcvar val : String)
    (hrc : ∀ c ∈ rcvar.data, c.isWhitespace = false)
    (hval : ∀ c ∈ val.data, c.isWhitespace = false) :
    switchLines rcvar val [appendLine rcvar val] = ([appendLine rcvar val], true) := by
  simp only [switchLines, pyStartsWith_appendLine rcvar val, if_true]
  rw [rewriteLine_appendLine rcvar val hrc hval]

lemma switchNlines_idem (rcvar val : String)
    (hrc : ∀ c ∈ rcvar.data, c.isWhitespace = false) (hrcne : rcvar.data ≠ [])
    (hval : ∀ c ∈ val.data, c.isWhitespace = false) (content : Option (List String)) :
    switchNlines rcvar val (some (switchNlines rcvar val content)) =
      switchNlines rcvar val content := by
  cases content with
  | none =>
    simp only [switchNlines, switchLines_single_append rcvar val hrc hval, if_true]
  | some lines =>
    simp only [switchNlines]
    cases he : (switchLines rcvar val lines).2 with
    | true =>
      simp only [he, if_true]
      simp [he, switchLines_idem rcvar val hrc hrcne hval lines]
    | false =>
      simp only [he, Bool.false_eq_true, if_false]
      rw [switchLines_no_edit rcvar val lines he]
      rw [switchLines_append rcvar val lines [appendLine rcvar val]]
      rw [switchLines_single_append rcvar val hrc hval]
      rw [switchLines_no_edit rcvar val lines he, he]
      simp

lemma getFile_setFile (fs : List (String × List String)) (p : String) (v : List String) :
    getFile (setFile fs p v) p = some v := by
  simp [getFile, setFile, List.find?]

lemma setFile_setFile (fs : List (String × List String)) (p : String) (v v2 : List String) :
    setFile (setFile fs p v) p v2 = setFile fs p v2 := by
  simp only [setFile, List.filter_cons]
  simp [List.filter_filter]

lemma str_ne_nil (r : String) (h : r ≠ "") : r.data ≠ [] := by
  intro hd
  exact h (String.ext (by rw [hd]))

lemma writeSwitch_idem (w : World) (config rcvar : String) (turnOn : Bool)
    (hrc : ∀ c ∈ rcvar.data, c.isWhitespace = false) (hrcne : rcvar.data ≠ []) :
    writeSwitch (writeSwitch w config rcvar turnOn) config rcvar turnOn =
      writeSwitch w config rcvar turnOn := by
  have hval : ∀ c ∈ (switchVal turnOn).data, c.isWhitespace = false := by
    cases turnOn <;> decide
  unfold writeSwitch
  simp only [World.mk.injEq, true_and]
  rw [getFile_setFile]
  rw [switchNlines_idem rcvar (switchVal turnOn) hrc hrcne hval]
  rw [setFile_setFile]

lemma _get_rcvar_some_avail (w : World) (name r : String)
    (h : _get_rcvar w name = Except.ok (some r)) :
    available w name = Except.ok true := by
  unfold _get_rcvar at h
  split at h
  · cases h
  · simp at h
  · assumption

lemma _switch_eq_of_rcvar (w : World) (name : String) (turnOn : Bool) (kw : Option String)
    (rcvar : String) (hav : available w name = Except.ok true)
    (hrc : _get_rcvar w name = Except.ok (some rcvar)) :
    _switch w name turnOn kw =
      (if rcvar = "" then Except.ok (false, w)
       else if kw.getD w.configOption = "" then
         (if w.rcConfDirExists then
            Except.ok (true, writeSwitch w (rcdPath rcvar) rcvar turnOn)
          else Except.ok (false, w))
       else Except.ok (true, writeSwitch w (kw.getD w.configOption) rcvar turnOn)) := by
  unfold _switch
  rw [hav, hrc]

lemma available_writeSwitch (w : World) (c r : String) (t : Bool) (name : String) :
    available (writeSwitch w c r t) name = available w name := rfl

lemma _get_rcvar_writeSwitch (w : World) (c r : String) (t : Bool) (name : String) :
    _get_rcvar (writeSwitch w c r t) name = _get_rcvar w name := rfl

lemma configOption_writeSwitch (w : World) (c r : String) (t : Bool) :
    (writeSwitch w c r t).configOption = w.configOption := rfl

lemma rcConfDirExists_writeSwitch (w : World) (c r : String) (t : Bool) :
    (writeSwitch w c r t).rcConfDirExists = w.rcConfDirExists := rfl

/-- Core of the service half of the idempotence claim: a successful
`_switch` is a fixed point — run again on the world it produced, with the
same arguments, it succeeds again and leaves the world unchanged. -/
lemma _switch_idem (w : World) (name : String) (turnOn : Bool) (kw : Option String)
    (w2 : World) (r : String)
    (h1 : _switch w name turnOn kw = Except.ok (true, w2))
    (h2 : _get_rcvar w name = Except.ok (some r))
    (h3 : ∀ c ∈ r.data, c.isWhitespace = false) :
    _switch w2 name turnOn kw = Except.ok (true, w2) := by
  have hav : available w name = Except.ok true := _get_rcvar_some_avail w name r h2
  rw [_switch_eq_of_rcvar w name turnOn kw r hav h2] at h1
  by_cases hne : r = ""
  · rw [if_pos hne] at h1
    simp at h1
  · rw [if_neg hne] at h1
    have hrcne : r.data ≠ [] := str_ne_nil r hne
    by_cases hcfg : kw.getD w.configOption = ""
    · rw [if_pos hcfg] at h1
      by_cases hdir : w.rcConfDirExists = true
      · rw [if_pos hdir] at h1
        injection h1 with h1
        injection h1 with _ hw2
        subst hw2
        have hav2 : available (writeSwitch w (rcdPath r) r turnOn) name = Except.ok true := by
          rw [available_writeSwitch]
          exact hav
        have hrc2 : _get_rcvar (writeSwitch w (rcdPath r) r turnOn) name =
            Except.ok (some r) := by
          rw [_get_rcvar_writeSwitch]
          exact h2
        rw [_switch_eq_of_rcvar _ name turnOn kw r hav2 hrc2]
        rw [if_neg hne, configOption_writeSwitch, if_pos hcfg,
          rcConfDirExists_writeSwitch, if_pos hdir]
        rw [writeSwitch_idem w (rcdPath r) r turnOn h3 hrcne]
      · rw [if_neg hdir] at h1
        simp at h1
    · rw [if_neg hcfg] at h1
      injection h1 with h1
      injection h1 with _ hw2
      subst hw2
      have hav2 : available (writeSwitch w (kw.getD w.configOption) r turnOn) name =
          Except.ok true := by
        rw [available_writeSwitch]
        exact hav
      have hrc2 : _get_rcvar (writeSwitch w (kw.getD w.configOption) r turnOn) name =
          Except.ok (some r) := by
        rw [_get_rcvar_writeSwitch]
        exact h2
      rw [_switch_eq_of_rcvar _ name turnOn kw r hav2 hrc2]
      rw [if_neg hne, configOption_writeSwitch, if_neg hcfg]
      rw [writeSwitch_idem w (kw.getD w.configOption) r turnOn h3 hrcne]

lemma mem_set_job (tab : List CronSpec) (j : CronSpec) : j ∈ (set_job tab j).2 := by
  unfold set_job
  split_ifs with h1 h2
  · exact h1
  · rcases List.any_eq_true.mp h2 with ⟨e, he, hme⟩
    exact List.mem_map.mpr ⟨e, he, by simp [hme]⟩
  · simp

lemma set_job_second (tab : List CronSpec) (j : CronSpec) :
    set_job (set_job tab j).2 j = ("present", (set_job tab j).2) := by
  have hmem := mem_set_job tab j
  generalize hgen : (set_job tab j).2 = t1 at hmem ⊢
  unfold set_job
  rw [if_pos hmem]

lemma rm_job_none_left (tab : List CronSpec) (j : CronSpec) :
    (rm_job tab j).2.any (fun e => cronMatch j e) = false := by
  unfold rm_job
  split_ifs with h1
  · rw [List.any_eq_false]
    intro x hx
    rcases List.mem_filter.mp hx with ⟨_, hpx⟩
    simp_all
  · simpa using h1

lemma rm_job_second (tab : List CronSpec) (j : CronSpec) :
    rm_job (rm_job tab j).2 j = ("absent", (rm_job tab j).2) := by
  have h := rm_job_none_left tab j
  generalize hgen : (rm_job tab j).2 = t1 at h ⊢
  unfold rm_job
  rw [if_neg (by simp [h])]

/-! ### Claim C1 -/

/-- C1: reconciliation is idempotent.  For cron: a second `present`
(resp. `absent`) call with the same arguments on the crontab produced by
the first call reports `already present` (resp. `already absent`) with
`result = True` and empty `changes`, leaving the crontab unchanged.  For
the service module: when `enable`/`disable` (`_switch`) succeeds, running
it again with the same arguments on the world it produced succeeds again
and leaves the world — in particular the config file content — exactly as
the first call wrote it.  (The rcvar reported by the system is assumed to
contain no whitespace, which holds for every real `<name>_enable` rcvar.) -/
theorem C1_idempotent :
    (∀ tab name user mi hr dm mo dw,
      cron_present (cron_present tab name user mi hr dm mo dw).2 name user mi hr dm mo dw =
        ({ name := name, result := true, changes := [],
           comment := "Cron " ++ name ++ " already present" },
         (cron_present tab name user mi hr dm mo dw).2)) ∧
    (∀ tab name user mi hr dm mo dw,
      cron_absent (cron_absent tab name user mi hr dm mo dw).2 name user mi hr dm mo dw =
        ({ name := name, result := true, changes := [],
           comment := "Cron " ++ name ++ " already absent" },
         (cron_absent tab name user mi hr dm mo dw).2)) ∧
    (∀ w name turnOn kw w2 r,
      _switch w name turnOn kw = Except.ok (true, w2) →
      _get_rcvar w name = Except.ok (some r) →
      (∀ c ∈ r.data, c.isWhitespace = false) →
      _switch w2 name turnOn kw = Except.ok (true, w2)) := by
  refine ⟨?_, ?_, ?_⟩
  · intro tab name user mi hr dm mo dw
    unfold cron_present
    simp only
    rw [set_job_second]
    simp [present_ret]
  · intro tab name user mi hr dm mo dw
    unfold cron_absent
    simp only
    rw [rm_job_second]
    simp [absent_ret]
  · intro w name turnOn kw w2 r h1 h2 h3
    exact _switch_idem w name turnOn kw w2 r h1 h2 h3

/-- Concrete world for the C1 witness: `sshd` is available, its rcvar is
`sshd_enable`, and `/etc/rc.conf` holds a disabling line plus a comment. -/
def switchWorld : World :=
  { whichService := some "/usr/sbin/service",
    listOutput := ["sshd"],
    enabledOutput := [],
    rcvarOutput := [("sshd", ["sshd_enable=\x22NO\x22"])],
    rcConfD := [],
    rcConfDirExists := true,
    configOption := "/etc/rc.conf",
    files := [("/etc/rc.conf", ["sshd_enable=\x22NO\x22\n", "# comment\n"])] }

/-- The world `enable` produces from `switchWorld`: the matching line now
says `YES`, the comment is untouched. -/
def switchWorld2 : World :=
  { switchWorld with
    files := [("/etc/rc.conf", ["sshd_enable=\x22YES\x22\n", "# comment\n"])] }

theorem C1_witness :
    _switch switchWorld "sshd" true none = Except.ok (true, switchWorld2) ∧
    _switch switchWorld2 "sshd" true none = Except.ok (true, switchWorld2) :=
  ⟨by decide,
   C1_idempotent.2.2 switchWorld "sshd" true none switchWorld2 "sshd_enable"
     (by decide) (by decide) (by decide)⟩

theorem C4_witness :
    (writeTraceStates (switchNlines "sshd_enable" "YES" none)).head? = some [] ∧
    [] <+: switchNlines "sshd_enable" "YES" none :=
  ⟨(C4_truncate_in_place "sshd_enable" "YES" none).1,
   (C4_truncate_in_place "sshd_enable" "YES" none).2.2 [] (by decide)⟩
